import Mathlib

/-!
Verification development for the refresh-token lifecycle manager of the
`devAman` backend (`apps/kinzoku-api`).

The token store and its operations are embedded from
`src/repositories/user.repository.ts`:
- `createRefreshToken` (lines 78-87),
- `findRefreshTokenByRaw` (lines 89-95),
- `revokeRefreshTokenById` (lines 98-108),
- `revokeAllRefreshTokensForUser` (lines 111-116),
- `rotateRefreshToken` (lines 118-169).

The Prisma database is modelled as a list of refresh-token rows together
with a counter supplying fresh primary keys.  `prisma.$transaction`
receives an async callback and rolls every write back when the callback
throws; this is modelled by running the transaction body as a pure
function returning the written store together with an `Except` result,
and discarding the written store whenever the result is an error.

The cookie handling of `src/controllers/user.controller.ts` (signUp /
signIn set-cookie calls and the logout handler) is embedded at the end.
-/

namespace Kinzoku

/-- Modelled from the spec: `hashToken` lives in `src/utils/tokens`, which is
not part of the sources under review.  The spec describes it as a
deterministic, collision-resistant, one-way transform from a raw secret to a
storable fingerprint.  Raw secrets are modelled as naturals and the hash as an
injective function distinct from the identity; one-wayness is not observable
in the embedding. -/
def hashToken (raw : Nat) : Nat := 2 * raw + 1

/-- One row of the `refreshToken` table: unique `id`, owning `userId`,
unique `tokenHash` (the fingerprint), absolute `expiresAt`, and the
`revoked` flag (`false` on creation). -/
structure RefreshTokenRecord where
  id : Nat
  userId : Nat
  tokenHash : Nat
  expiresAt : Nat
  revoked : Bool
deriving Repr, DecidableEq

/-- The refresh-token table plus the id generator supplying fresh primary
keys for `create`. -/
structure Store where
  records : List RefreshTokenRecord
  nextId : Nat
deriving Repr, DecidableEq

/-- The typed failures raised by the repository:
`invalidToken` = throw "Invalid refresh token",
`reuseDetected` = throw "Refresh token reuse detected",
`expired` = throw "Refresh token expired",
`conflict` = Prisma unique-constraint violation on `tokenHash`,
`notFound` = Prisma P2025 (update of a non-existent row). -/
inductive TokenError where
  | invalidToken
  | reuseDetected
  | expired
  | conflict
  | notFound
deriving Repr, DecidableEq

/-- `prisma.refreshToken.findUnique({ where: { tokenHash } })`. -/
def findByHash (s : Store) (h : Nat) : Option RefreshTokenRecord :=
  s.records.find? (fun r => r.tokenHash == h)

/-- `findRefreshTokenByRaw` (repository lines 89-95): hash the raw token and
query by the fingerprint. -/
def findRefreshTokenByRaw (s : Store) (rawToken : Nat) : Option RefreshTokenRecord :=
  findByHash s (hashToken rawToken)

/-- The row inserted by `prisma.refreshToken.create`: fresh id, the given
owner, fingerprint and expiry, `revoked` defaulted to `false`. -/
def freshRecord (s : Store) (userId tokenHash expiresAt : Nat) : RefreshTokenRecord :=
  { id := s.nextId, userId := userId, tokenHash := tokenHash,
    expiresAt := expiresAt, revoked := false }

/-- Set the `revoked` flag of one row. -/
def revokeRecord (r : RefreshTokenRecord) : RefreshTokenRecord :=
  { r with revoked := true }

/-- The per-row effect of `update({ where: { id }, data: { revoked: true } })`. -/
def revokeIfId (tokenId : Nat) (r : RefreshTokenRecord) : RefreshTokenRecord :=
  if r.id == tokenId then revokeRecord r else r

/-- The per-row effect of
`updateMany({ where: { userId, revoked: false }, data: { revoked: true } })`. -/
def revokeIfUser (userId : Nat) (r : RefreshTokenRecord) : RefreshTokenRecord :=
  if r.userId == userId && !r.revoked then revokeRecord r else r

/-- The per-row effect of the reuse-branch
`updateMany({ where: { userId }, data: { revoked: true } })` (no `revoked`
filter, repository lines 135-138). -/
def revokeIfUserAll (userId : Nat) (r : RefreshTokenRecord) : RefreshTokenRecord :=
  if r.userId == userId then revokeRecord r else r

/-- `createRefreshToken` (repository lines 78-87): hash the raw token and
insert a new row.  The unique constraint on `tokenHash` makes the insert fail
when the fingerprint already exists. -/
def createRefreshToken (s : Store) (userId rawToken expiresAt : Nat) :
    Except TokenError (Store × RefreshTokenRecord) :=
  match findByHash s (hashToken rawToken) with
  | some _ => .error .conflict
  | none =>
      let r := freshRecord s userId (hashToken rawToken) expiresAt
      .ok ({ records := s.records ++ [r], nextId := s.nextId + 1 }, r)

/-- `revokeRefreshTokenById` (repository lines 98-108):
`update({ where: { id: tokenId }, data: { revoked: true } })`; Prisma raises
P2025 when no row has that id. -/
def revokeRefreshTokenById (s : Store) (tokenId : Nat) : Except TokenError Store :=
  if s.records.any (fun r => r.id == tokenId) then
    .ok { s with records := s.records.map (revokeIfId tokenId) }
  else
    .error .notFound

/-- `revokeAllRefreshTokensForUser` (repository lines 111-116):
`updateMany({ where: { userId, revoked: false }, data: { revoked: true } })`;
`updateMany` never throws on zero matches. -/
def revokeAllRefreshTokensForUser (s : Store) (userId : Nat) : Store :=
  { s with records := s.records.map (revokeIfUser userId) }

/-- The body of the `$transaction` callback of `rotateRefreshToken`
(repository lines 125-168), run against the store `s`; returns the store as
written by the callback together with the thrown error or the returned value.
The new raw token minted by `uuidv4()` is passed in as `newRaw`. -/
def rotateBody (s : Store) (oldHash userId newExpiresAt newRaw now : Nat) :
    Store × Except TokenError (Nat × RefreshTokenRecord) :=
  match findByHash s oldHash with
  | none => (s, .error .invalidToken)
  | some oldRecord =>
    if oldRecord.revoked then
      ({ s with records := s.records.map (revokeIfUserAll userId) },
       .error .reuseDetected)
    else if oldRecord.expiresAt < now then
      ({ s with records := s.records.map (revokeIfId oldRecord.id) },
       .error .expired)
    else
      match findByHash s (hashToken newRaw) with
      | some _ => (s, .error .conflict)
      | none =>
        let newRecord := freshRecord s userId (hashToken newRaw) newExpiresAt
        ({ records := (s.records ++ [newRecord]).map (revokeIfId oldRecord.id),
           nextId := s.nextId + 1 },
         .ok (newRaw, newRecord))

/-- `rotateRefreshToken` (repository lines 118-169): run the transaction
body; a throw from the callback makes `prisma.$transaction` roll every write
back, so on error the original store is kept. -/
def rotateRefreshToken (s : Store) (oldRawToken userId newExpiresAt newRaw now : Nat) :
    Store × Except TokenError (Nat × RefreshTokenRecord) :=
  match rotateBody s (hashToken oldRawToken) userId newExpiresAt newRaw now with
  | (_, .error e) => (s, .error e)
  | (s', .ok v) => (s', .ok v)

/-- Well-formedness maintained by the database's constraints: primary keys
and fingerprints are pairwise distinct, and every id is below the generator. -/
def WF (s : Store) : Prop :=
  s.records.Pairwise (fun a b => a.id ≠ b.id ∧ a.tokenHash ≠ b.tokenHash) ∧
  ∀ r ∈ s.records, r.id < s.nextId

instance (s : Store) : Decidable (WF s) := by
  unfold WF; infer_instance

/-! ## Cookie handling (`src/controllers/user.controller.ts` and `src/config.ts`) -/

/-- `config.cookie.accessCookieName` (config.ts line 12). -/
def accessCookieName : String := "access_token"

/-- `config.cookie.refreshCookieName` (config.ts line 13). -/
def refreshCookieName : String := "refresh_token"

/-- The cookies set on the response by `signUp` (controller lines 22-36) and
`signIn` (lines 65-79): the access token under
`config.cookie.accessCookieName` and the refresh token under
`config.cookie.refreshCookieName`. -/
def signInCookies (accessValue refreshValue : String) : List (String × String) :=
  [(accessCookieName, accessValue), (refreshCookieName, refreshValue)]

/-- `req.cookies.<key>`: lookup of a cookie by name, `none` when absent. -/
def getCookie (cookies : List (String × String)) (key : String) : Option String :=
  (cookies.find? (fun kv => kv.1 == key)).map (fun kv => kv.2)

/-- The observable outcome of the logout handler: the HTTP status and
whether `userService.logout` (the revocation) was invoked. -/
structure LogoutResponse where
  status : Nat
  revocationInvoked : Bool
deriving Repr, DecidableEq

/-- The logout handler (controller lines 165-187): read
`req.cookies.refreshToken`; only when it is present and truthy (JavaScript:
`undefined` and `""` are falsy) call `userService.logout`; always respond
with status 200. -/
def logout (cookies : List (String × String)) : LogoutResponse :=
  match getCookie cookies "refreshToken" with
  | none => { status := 200, revocationInvoked := false }
  | some v =>
      if v = "" then { status := 200, revocationInvoked := false }
      else { status := 200, revocationInvoked := true }

/-! ## Example stores used as concrete inputs -/

/-- A store for user 1 holding a revoked record (fingerprint of raw secret 5)
and a second, still active record (fingerprint of raw secret 7). -/
def reuseStore : Store :=
  ⟨[⟨0, 1, hashToken 5, 100, true⟩, ⟨1, 1, hashToken 7, 100, false⟩], 2⟩

/-- A store holding a single active record owned by user 1 (fingerprint of
raw secret 5). -/
def ownerStore : Store := ⟨[⟨0, 1, hashToken 5, 100, false⟩], 1⟩

/-- A store holding a single expired, unrevoked record owned by user 1
(fingerprint of raw secret 5, expiry 10). -/
def expiredStore : Store := ⟨[⟨0, 1, hashToken 5, 10, false⟩], 1⟩

/-- The store produced by rotating the token of `ownerStore` for user 1 at
time 50 with new raw secret 9 and new expiry 200. -/
def rotatedOwnerStore : Store :=
  ⟨[⟨0, 1, hashToken 5, 100, true⟩, ⟨1, 1, hashToken 9, 200, false⟩], 2⟩

/-- The record minted by that rotation. -/
def rotatedOwnerRecord : RefreshTokenRecord := ⟨1, 1, hashToken 9, 200, false⟩

/-- Record-by-record monotonicity of the `revoked` flag between two stores:
no row disappears, every surviving row keeps its primary key, and a row
revoked before stays revoked after. -/
def RevokedMono (s s' : Store) : Prop :=
  s.records.length ≤ s'.records.length ∧
  ∀ i (h : i < s.records.length) (h' : i < s'.records.length),
    (s'.records.get ⟨i, h'⟩).id = (s.records.get ⟨i, h⟩).id ∧
    ((s.records.get ⟨i, h⟩).revoked = true → (s'.records.get ⟨i, h'⟩).revoked = true)

/-! ## Helper lemmas -/

lemma hashToken_injective {a b : Nat} (h : hashToken a = hashToken b) : a = b := by
  unfold hashToken at h; omega

lemma hashToken_ne_raw (a : Nat) : hashToken a ≠ a := by
  unfold hashToken; omega

lemma revokeIfId_id (i : Nat) (r : RefreshTokenRecord) : (revokeIfId i r).id = r.id := by
  unfold revokeIfId revokeRecord; split <;> rfl

lemma revokeIfId_tokenHash (i : Nat) (r : RefreshTokenRecord) :
    (revokeIfId i r).tokenHash = r.tokenHash := by
  unfold revokeIfId revokeRecord; split <;> rfl

lemma revokeIfId_userId (i : Nat) (r : RefreshTokenRecord) :
    (revokeIfId i r).userId = r.userId := by
  unfold revokeIfId revokeRecord; split <;> rfl

lemma revokeIfId_of_ne (i : Nat) (r : RefreshTokenRecord) (h : r.id ≠ i) :
    revokeIfId i r = r := by
  unfold revokeIfId
  simp [h]

lemma revokeIfId_self (r : RefreshTokenRecord) : revokeIfId r.id r = revokeRecord r := by
  unfold revokeIfId
  simp

lemma revokeIfUser_id (u : Nat) (r : RefreshTokenRecord) : (revokeIfUser u r).id = r.id := by
  unfold revokeIfUser revokeRecord; split <;> rfl

lemma revokeIfUser_tokenHash (u : Nat) (r : RefreshTokenRecord) :
    (revokeIfUser u r).tokenHash = r.tokenHash := by
  unfold revokeIfUser revokeRecord; split <;> rfl

lemma revokeIfUserAll_id (u : Nat) (r : RefreshTokenRecord) :
    (revokeIfUserAll u r).id = r.id := by
  unfold revokeIfUserAll revokeRecord; split <;> rfl

lemma revokeIfUserAll_tokenHash (u : Nat) (r : RefreshTokenRecord) :
    (revokeIfUserAll u r).tokenHash = r.tokenHash := by
  unfold revokeIfUserAll revokeRecord; split <;> rfl

/-- `find?` by fingerprint commutes with mapping a hash-preserving function. -/
lemma find?_hash_map (l : List RefreshTokenRecord) (f : RefreshTokenRecord → RefreshTokenRecord)
    (hf : ∀ r, (f r).tokenHash = r.tokenHash) (h : Nat) :
    (l.map f).find? (fun r => r.tokenHash == h)
      = (l.find? (fun r => r.tokenHash == h)).map f := by
  rw [List.find?_map]
  have heq : ((fun r : RefreshTokenRecord => r.tokenHash == h) ∘ f)
      = fun r => r.tokenHash == h := by
    funext r
    simp [Function.comp, hf]
  rw [heq]

/-- Computation of `createRefreshToken` when the fingerprint is fresh. -/
lemma create_ok {s : Store} {uid raw e : Nat}
    (hfresh : findByHash s (hashToken raw) = none) :
    createRefreshToken s uid raw e =
      .ok ({ records := s.records ++ [freshRecord s uid (hashToken raw) e],
             nextId := s.nextId + 1 },
           freshRecord s uid (hashToken raw) e) := by
  unfold createRefreshToken
  rw [hfresh]

/-- Computation of `rotateBody` in the reuse branch. -/
lemma rotateBody_reuse {s : Store} {h uid nE nR now : Nat} {old : RefreshTokenRecord}
    (hfind : findByHash s h = some old) (hrev : old.revoked = true) :
    rotateBody s h uid nE nR now =
      ({ s with records := s.records.map (revokeIfUserAll uid) }, .error .reuseDetected) := by
  unfold rotateBody
  rw [hfind]
  simp [hrev]

/-- A revoked record behind the presented fingerprint makes the whole
rotation fail with reuse detection and roll back. -/
lemma rotate_reuse {s : Store} {oRaw uid nE nR now : Nat} {old : RefreshTokenRecord}
    (hfind : findByHash s (hashToken oRaw) = some old) (hrev : old.revoked = true) :
    rotateRefreshToken s oRaw uid nE nR now = (s, .error .reuseDetected) := by
  unfold rotateRefreshToken
  rw [rotateBody_reuse hfind hrev]

/-- Computation of `rotateBody` in the success branch. -/
lemma rotateBody_ok {s : Store} {h uid nE nR now : Nat} {old : RefreshTokenRecord}
    (hfind : findByHash s h = some old) (hrev : old.revoked = false)
    (hexp : ¬ old.expiresAt < now)
    (hconf : findByHash s (hashToken nR) = none) :
    rotateBody s h uid nE nR now =
      ({ records := (s.records ++ [freshRecord s uid (hashToken nR) nE]).map
           (revokeIfId old.id),
         nextId := s.nextId + 1 },
       .ok (nR, freshRecord s uid (hashToken nR) nE)) := by
  unfold rotateBody
  rw [hfind]
  simp [hrev, hexp, hconf]

/-- Computation of `rotateRefreshToken` in the success branch. -/
lemma rotate_ok {s : Store} {oRaw uid nE nR now : Nat} {old : RefreshTokenRecord}
    (hfind : findByHash s (hashToken oRaw) = some old) (hrev : old.revoked = false)
    (hexp : ¬ old.expiresAt < now)
    (hconf : findByHash s (hashToken nR) = none) :
    rotateRefreshToken s oRaw uid nE nR now =
      ({ records := (s.records ++ [freshRecord s uid (hashToken nR) nE]).map
           (revokeIfId old.id),
         nextId := s.nextId + 1 },
       .ok (nR, freshRecord s uid (hashToken nR) nE)) := by
  unfold rotateRefreshToken
  rw [rotateBody_ok hfind hrev hexp hconf]

/-- Inversion: everything a successful rotation implies about its inputs and
its resulting store. -/
lemma rotate_ok_elim {s : Store} {oRaw uid nE nR now : Nat} {s' : Store} {v : Nat}
    {rec' : RefreshTokenRecord}
    (hok : rotateRefreshToken s oRaw uid nE nR now = (s', .ok (v, rec'))) :
    ∃ old, findByHash s (hashToken oRaw) = some old ∧ old.revoked = false ∧
      ¬ old.expiresAt < now ∧ findByHash s (hashToken nR) = none ∧
      v = nR ∧ rec' = freshRecord s uid (hashToken nR) nE ∧
      s' = { records := (s.records ++ [rec']).map (revokeIfId old.id),
             nextId := s.nextId + 1 } := by
  cases hfind : findByHash s (hashToken oRaw) with
  | none =>
      unfold rotateRefreshToken rotateBody at hok
      rw [hfind] at hok
      simp at hok
  | some old =>
      by_cases hrev : old.revoked = true
      · rw [rotate_reuse hfind hrev] at hok
        simp at hok
      · have hrev' : old.revoked = false := by
          cases hb : old.revoked
          · rfl
          · exact absurd hb hrev
        by_cases hexp : old.expiresAt < now
        · unfold rotateRefreshToken rotateBody at hok
          rw [hfind] at hok
          simp [hrev', hexp] at hok
        · cases hconf : findByHash s (hashToken nR) with
          | some _ =>
              unfold rotateRefreshToken rotateBody at hok
              rw [hfind] at hok
              simp [hrev', hexp, hconf] at hok
          | none =>
              rw [rotate_ok hfind hrev' hexp hconf] at hok
              rw [Prod.mk.injEq] at hok
              obtain ⟨hs, hvr⟩ := hok
              have hv : nR = v ∧ freshRecord s uid (hashToken nR) nE = rec' := by
                simpa using hvr
              refine ⟨old, rfl, hrev', hexp, rfl, hv.1.symm, hv.2.symm, ?_⟩
              rw [← hs, ← hv.2]

/-- A rotation that fails keeps the original store (transaction rollback). -/
lemma rotate_error_elim {s : Store} {oRaw uid nE nR now : Nat} {s' : Store}
    {e : TokenError}
    (h : rotateRefreshToken s oRaw uid nE nR now = (s', .error e)) : s' = s := by
  unfold rotateRefreshToken at h
  cases hb : rotateBody s (hashToken oRaw) uid nE nR now with
  | mk s0 r0 =>
      rw [hb] at h
      cases r0 with
      | error e0 => exact (Prod.mk.injEq .. ▸ h).1.symm
      | ok v0 => simp at h

/-- Looking a fingerprint up after a commit-shaped write finds the image of
the record it found before. -/
lemma findByHash_commit (s : Store) (old : RefreshTokenRecord)
    (tail : List RefreshTokenRecord) (h n : Nat)
    (hfind : findByHash s h = some old) :
    findByHash ⟨(s.records ++ tail).map (revokeIfId old.id), n⟩ h
      = some (revokeIfId old.id old) := by
  show ((s.records ++ tail).map (revokeIfId old.id)).find?
      (fun r => r.tokenHash == h) = _
  rw [find?_hash_map _ _ (revokeIfId_tokenHash old.id), List.find?_append,
    show s.records.find? (fun r => r.tokenHash == h) = some old from hfind]
  rfl

/-- Looking a fresh fingerprint up after appending rows only inspects the
appended rows. -/
lemma findByHash_append_tail (s : Store) (tail : List RefreshTokenRecord) (h n : Nat)
    (hnone : findByHash s h = none) :
    findByHash ⟨s.records ++ tail, n⟩ h = tail.find? (fun r => r.tokenHash == h) := by
  show (s.records ++ tail).find? (fun r => r.tokenHash == h) = _
  rw [List.find?_append,
    show s.records.find? (fun r => r.tokenHash == h) = none from hnone]
  rfl

lemma revokedMono_refl (s : Store) : RevokedMono s s :=
  ⟨Nat.le_refl _, fun _ _ _ => ⟨rfl, fun h => h⟩⟩

lemma revokedMono_trans {s s' s'' : Store}
    (h1 : RevokedMono s s') (h2 : RevokedMono s' s'') : RevokedMono s s'' := by
  refine ⟨Nat.le_trans h1.1 h2.1, fun i h h' => ?_⟩
  have hm : i < s'.records.length := Nat.lt_of_lt_of_le h h1.1
  obtain ⟨hid1, hrev1⟩ := h1.2 i h hm
  obtain ⟨hid2, hrev2⟩ := h2.2 i hm h'
  exact ⟨hid2.trans hid1, fun hr => hrev2 (hrev1 hr)⟩

/-- Mapping an id-preserving, revocation-monotonic function over the rows is
a `RevokedMono` step. -/
lemma revokedMono_map (s : Store) (f : RefreshTokenRecord → RefreshTokenRecord)
    (n : Nat) (hid : ∀ r, (f r).id = r.id)
    (hmono : ∀ r, r.revoked = true → (f r).revoked = true) :
    RevokedMono s ⟨s.records.map f, n⟩ := by
  refine ⟨by simp, fun i h h' => ?_⟩
  simp only [List.get_eq_getElem, List.getElem_map]
  exact ⟨hid _, hmono _⟩

/-- Appending rows is a `RevokedMono` step. -/
lemma revokedMono_append (s : Store) (tail : List RefreshTokenRecord) (n : Nat) :
    RevokedMono s ⟨s.records ++ tail, n⟩ := by
  refine ⟨by simp, fun i h h' => ?_⟩
  simp only [List.get_eq_getElem]
  rw [List.getElem_append_left h]
  exact ⟨rfl, fun hr => hr⟩

lemma revokeIfId_revoked_mono (i : Nat) (r : RefreshTokenRecord)
    (h : r.revoked = true) : (revokeIfId i r).revoked = true := by
  unfold revokeIfId revokeRecord
  split <;> simp [h]

lemma revokeIfUser_revoked_mono (u : Nat) (r : RefreshTokenRecord)
    (h : r.revoked = true) : (revokeIfUser u r).revoked = true := by
  unfold revokeIfUser revokeRecord
  split <;> simp [h]

lemma revokeIfUserAll_revoked_mono (u : Nat) (r : RefreshTokenRecord)
    (h : r.revoked = true) : (revokeIfUserAll u r).revoked = true := by
  unfold revokeIfUserAll revokeRecord
  split <;> simp [h]

lemma revokeIfId_idem (i : Nat) (r : RefreshTokenRecord) :
    revokeIfId i (revokeIfId i r) = revokeIfId i r := by
  unfold revokeIfId revokeRecord
  by_cases h : r.id == i <;> simp [h]

lemma revokeIfUser_idem (u : Nat) (r : RefreshTokenRecord) :
    revokeIfUser u (revokeIfUser u r) = revokeIfUser u r := by
  unfold revokeIfUser revokeRecord
  by_cases h1 : r.userId == u <;> by_cases h2 : r.revoked <;> simp [h1, h2]

/-- Mapping an id-preserving function does not change which ids exist. -/
lemma any_id_map (l : List RefreshTokenRecord)
    (f : RefreshTokenRecord → RefreshTokenRecord)
    (hid : ∀ r, (f r).id = r.id) (tid : Nat) :
    (l.map f).any (fun r => r.id == tid) = l.any (fun r => r.id == tid) := by
  rw [List.any_map]
  congr 1
  funext r
  simp [Function.comp, hid]

/-! ## Claim theorems -/

/-- Claim C1, behavior of the code at the failing input: rotating the revoked
token of `reuseStore` does fail with reuse detection, but because the cascade
`updateMany` runs inside the very transaction that the subsequent `throw`
aborts, the rollback restores the original store: the user's second record is
still unrevoked after the call, so the cascade revocation is not persisted. -/
theorem c1_reuse_cascade_rolled_back :
    rotateRefreshToken reuseStore 5 1 200 9 50 = (reuseStore, .error .reuseDetected) ∧
    ∃ r ∈ (rotateRefreshToken reuseStore 5 1 200 9 50).1.records,
      r.userId = 1 ∧ r.revoked = false := by
  constructor
  · rfl
  · exact ⟨⟨1, 1, hashToken 7, 100, false⟩, by decide, rfl, rfl⟩

/-- Claim C3, behavior of the code at the failing input: rotating user 1's
active token while passing `userId = 2` succeeds — `rotateRefreshToken` never
compares `oldRecord.userId` with its `userId` argument — and the new record is
created for account 2, so the rotation does succeed for the argument's
account. -/
theorem c3_no_owner_check :
    rotateRefreshToken ownerStore 5 2 200 9 50 =
      (⟨[⟨0, 1, hashToken 5, 100, true⟩, ⟨1, 2, hashToken 9, 200, false⟩], 2⟩,
       .ok (9, ⟨1, 2, hashToken 9, 200, false⟩)) := by
  rfl

/-- Claim C4, behavior of the code at the failing input: rotating the expired
token at time 50 fails with `Expired`, but the cleanup `update` that marks
the record revoked runs inside the transaction that the subsequent `throw`
aborts, so the rollback leaves the expired record unrevoked — the revocation
is not persisted. -/
theorem c4_expiry_cleanup_rolled_back :
    rotateRefreshToken expiredStore 5 1 200 9 50 = (expiredStore, .error .expired) ∧
    ∃ r ∈ (rotateRefreshToken expiredStore 5 1 200 9 50).1.records,
      r.tokenHash = hashToken 5 ∧ r.revoked = false := by
  constructor
  · rfl
  · exact ⟨⟨0, 1, hashToken 5, 10, false⟩, by decide, rfl, rfl⟩

/-- Claim C10: `signUp`/`signIn` store the refresh token under the cookie
name `config.cookie.refreshCookieName = "refresh_token"`, while the logout
handler reads `req.cookies.refreshToken`; on any request carrying exactly the
cookies those handlers set, logout finds no refresh token, never invokes
`userService.logout`, and still answers 200. -/
theorem c10_logout_cookie_mismatch (a b : String) :
    refreshCookieName ≠ "refreshToken" ∧
    getCookie (signInCookies a b) "refreshToken" = none ∧
    logout (signInCookies a b) = { status := 200, revocationInvoked := false } := by
  have hget : getCookie (signInCookies a b) "refreshToken" = none := rfl
  refine ⟨by decide, hget, ?_⟩
  unfold logout
  rw [hget]

/-- Claim C10 witness: a concrete request carrying exactly the sign-in
cookies. -/
theorem c10_witness :
    refreshCookieName ≠ "refreshToken" ∧
    getCookie (signInCookies "a" "b") "refreshToken" = none ∧
    logout (signInCookies "a" "b") = { status := 200, revocationInvoked := false } :=
  c10_logout_cookie_mismatch "a" "b"

/-- Claim C5: a successful rotation is all-or-nothing — the resulting store
contains the freshly minted non-revoked record carrying the fingerprint of
the returned raw secret and the requested expiry, and in the same store the
old record is marked revoked. -/
theorem c5_rotation_all_or_nothing (s : Store) (oRaw uid nE nR now : Nat)
    (s' : Store) (v : Nat) (rec' : RefreshTokenRecord) (hWF : WF s)
    (hok : rotateRefreshToken s oRaw uid nE nR now = (s', .ok (v, rec'))) :
    v = nR ∧ rec'.tokenHash = hashToken nR ∧ rec'.expiresAt = nE ∧
    rec'.userId = uid ∧ rec'.revoked = false ∧ rec' ∈ s'.records ∧
    ∃ old, findByHash s (hashToken oRaw) = some old ∧ old.revoked = false ∧
      findByHash s' (hashToken oRaw) = some (revokeRecord old) := by
  obtain ⟨old, hfind, hrev, hexp, hconf, hv, hrec, hs⟩ := rotate_ok_elim hok
  subst hrec hs
  have hold_mem : old ∈ s.records := List.mem_of_find?_eq_some hfind
  have holdlt : old.id < s.nextId := hWF.2 old hold_mem
  have hne : (freshRecord s uid (hashToken nR) nE).id ≠ old.id := by
    unfold freshRecord
    simp only
    omega
  refine ⟨hv, rfl, rfl, rfl, rfl, ?_, old, hfind, hrev, ?_⟩
  · have hmem : revokeIfId old.id (freshRecord s uid (hashToken nR) nE)
        ∈ (s.records ++ [freshRecord s uid (hashToken nR) nE]).map (revokeIfId old.id) :=
      List.mem_map_of_mem _ (by simp)
    rwa [revokeIfId_of_ne _ _ hne] at hmem
  · rw [findByHash_commit s old _ _ _ hfind, revokeIfId_self]

/-- Claim C5 witness: the concrete rotation of `ownerStore`. -/
theorem c5_witness :
    WF ownerStore ∧
    ((9 : Nat) = 9 ∧ rotatedOwnerRecord.tokenHash = hashToken 9 ∧
     rotatedOwnerRecord.expiresAt = 200 ∧ rotatedOwnerRecord.userId = 1 ∧
     rotatedOwnerRecord.revoked = false ∧
     rotatedOwnerRecord ∈ rotatedOwnerStore.records ∧
     ∃ old, findByHash ownerStore (hashToken 5) = some old ∧
       old.revoked = false ∧
       findByHash rotatedOwnerStore (hashToken 5) = some (revokeRecord old)) :=
  ⟨by decide,
   c5_rotation_all_or_nothing ownerStore 5 1 200 9 50 rotatedOwnerStore 9
     rotatedOwnerRecord (by decide) rfl⟩

/-- Claim C7: the `revoked` flag is monotonic across every core operation —
`createRefreshToken`, `revokeRefreshTokenById`, `revokeAllRefreshTokensForUser`
and `rotateRefreshToken` keep every row, keep its primary key, and never turn
a revoked row back into a non-revoked one. -/
theorem c7_revoked_monotonic (s : Store) (uid raw e tid oRaw nE nR now : Nat) :
    (∀ s' r', createRefreshToken s uid raw e = .ok (s', r') → RevokedMono s s') ∧
    (∀ s', revokeRefreshTokenById s tid = .ok s' → RevokedMono s s') ∧
    RevokedMono s (revokeAllRefreshTokensForUser s uid) ∧
    RevokedMono s (rotateRefreshToken s oRaw uid nE nR now).1 := by
  refine ⟨?_, ?_, ?_, ?_⟩
  · intro s' r' hok
    unfold createRefreshToken at hok
    cases hfind : findByHash s (hashToken raw) with
    | some _ => rw [hfind] at hok; simp at hok
    | none =>
        rw [hfind] at hok
        have hs : s' = { records := s.records ++ [freshRecord s uid (hashToken raw) e],
                         nextId := s.nextId + 1 } := by
          have := (Except.ok.injEq .. ▸ hok : _ = (s', r'))
          exact (Prod.mk.injEq .. ▸ this).1.symm
        rw [hs]
        exact revokedMono_append s _ _
  · intro s' hok
    unfold revokeRefreshTokenById at hok
    by_cases hex : s.records.any (fun r => r.id == tid)
    · rw [if_pos hex] at hok
      have hs : s' = { s with records := s.records.map (revokeIfId tid) } :=
        (Except.ok.injEq .. ▸ hok).symm
      rw [hs]
      exact revokedMono_map s _ _ (revokeIfId_id tid) (revokeIfId_revoked_mono tid)
    · rw [if_neg hex] at hok
      simp at hok
  · exact revokedMono_map s _ _ (revokeIfUser_id uid) (revokeIfUser_revoked_mono uid)
  · cases hres : rotateRefreshToken s oRaw uid nE nR now with
    | mk s' res =>
        cases res with
        | error e0 =>
            rw [rotate_error_elim hres]
            exact revokedMono_refl s
        | ok v0 =>
            obtain ⟨v1, r1⟩ := v0
            obtain ⟨old, _, _, _, _, _, _, hs⟩ := rotate_ok_elim hres
            simp only [hs]
            exact revokedMono_trans (revokedMono_append s [r1] 0)
              (revokedMono_map ⟨s.records ++ [r1], 0⟩ _ _
                (revokeIfId_id old.id) (revokeIfId_revoked_mono old.id))

/-- Claim C7 witness: the monotonicity conjunct for the bulk revocation,
instantiated at `reuseStore`. -/
theorem c7_witness : RevokedMono reuseStore (revokeAllRefreshTokensForUser reuseStore 1) :=
  (c7_revoked_monotonic reuseStore 1 5 100 0 5 200 9 50).2.2.1

/-- Claim C8: raw secrets never reach the store — rows minted by
`createRefreshToken` and `rotateRefreshToken` carry `hashToken` of the raw
secret (which differs from the raw secret itself), every other row keeps a
fingerprint that existed before, and both lookup and rotation depend on the
presented raw secret only through its fingerprint. -/
theorem c8_raw_never_stored (s : Store) (uid raw e oRaw nE nR now : Nat) :
    (∀ s' r', createRefreshToken s uid raw e = .ok (s', r') →
        r'.tokenHash = hashToken raw ∧ hashToken raw ≠ raw ∧
        ∀ q ∈ s'.records, q ∈ s.records ∨ q.tokenHash = hashToken raw) ∧
    (∀ raw2, hashToken raw = hashToken raw2 →
        findRefreshTokenByRaw s raw = findRefreshTokenByRaw s raw2) ∧
    (∀ s' v r', rotateRefreshToken s oRaw uid nE nR now = (s', .ok (v, r')) →
        r'.tokenHash = hashToken nR ∧ hashToken nR ≠ nR ∧
        ∀ q ∈ s'.records, (∃ p ∈ s.records, q.tokenHash = p.tokenHash) ∨
          q.tokenHash = hashToken nR) ∧
    (∀ oRaw2, hashToken oRaw = hashToken oRaw2 →
        rotateRefreshToken s oRaw uid nE nR now
          = rotateRefreshToken s oRaw2 uid nE nR now) := by
  refine ⟨?_, ?_, ?_, ?_⟩
  · intro s' r' hok
    unfold createRefreshToken at hok
    cases hfind : findByHash s (hashToken raw) with
    | some _ => rw [hfind] at hok; simp at hok
    | none =>
        rw [hfind] at hok
        have hpair := (Except.ok.injEq .. ▸ hok : _ = (s', r'))
        have hs := (Prod.mk.injEq .. ▸ hpair).1
        have hr := (Prod.mk.injEq .. ▸ hpair).2
        refine ⟨hr ▸ rfl, hashToken_ne_raw raw, ?_⟩
        intro q hq
        rw [← hs] at hq
        rcases List.mem_append.mp hq with hq | hq
        · exact Or.inl hq
        · right
          rw [List.mem_singleton.mp hq]
          rfl
  · intro raw2 h
    unfold findRefreshTokenByRaw
    rw [h]
  · intro s' v r' hok
    obtain ⟨old, _, _, _, _, _, hrec, hs⟩ := rotate_ok_elim hok
    refine ⟨hrec ▸ rfl, hashToken_ne_raw nR, ?_⟩
    intro q hq
    rw [hs] at hq
    obtain ⟨p0, hp0, hq0⟩ := List.mem_map.mp hq
    rcases List.mem_append.mp hp0 with hp | hp
    · exact Or.inl ⟨p0, hp, hq0 ▸ revokeIfId_tokenHash old.id p0⟩
    · right
      rw [← hq0, revokeIfId_tokenHash, List.mem_singleton.mp hp, hrec]
      rfl
  · intro oRaw2 h
    unfold rotateRefreshToken
    rw [h]

/-- Claim C8 witness: fingerprint-only dependence of the lookup, at raw
secret 5 over `ownerStore`. -/
theorem c8_witness :
    hashToken 5 = hashToken 5 ∧
    findRefreshTokenByRaw ownerStore 5 = findRefreshTokenByRaw ownerStore 5 :=
  ⟨rfl, (c8_raw_never_stored ownerStore 1 5 100 5 200 9 50).2.1 5 rfl⟩

/-- Claim C9: `revokeRefreshTokenById` on an existing token and
`revokeAllRefreshTokensForUser` are idempotent — the second call raises no
error and returns exactly the state the first call produced. -/
theorem c9_revocation_idempotent (s : Store) (tid uid : Nat)
    (hex : s.records.any (fun r => r.id == tid) = true) :
    (∃ s', revokeRefreshTokenById s tid = .ok s' ∧
       revokeRefreshTokenById s' tid = .ok s') ∧
    revokeAllRefreshTokensForUser (revokeAllRefreshTokensForUser s uid) uid
      = revokeAllRefreshTokensForUser s uid := by
  constructor
  · refine ⟨{ s with records := s.records.map (revokeIfId tid) }, ?_, ?_⟩
    · unfold revokeRefreshTokenById
      rw [if_pos hex]
    · unfold revokeRefreshTokenById
      rw [if_pos (by rw [any_id_map s.records _ (revokeIfId_id tid) tid]; exact hex)]
      have hf : revokeIfId tid ∘ revokeIfId tid = revokeIfId tid := by
        funext r
        exact revokeIfId_idem tid r
      simp only [List.map_map, hf]
  · unfold revokeAllRefreshTokensForUser
    have hf : revokeIfUser uid ∘ revokeIfUser uid = revokeIfUser uid := by
      funext r
      exact revokeIfUser_idem uid r
    simp only [List.map_map, hf]

/-- Claim C9 witness: revocations over `reuseStore` at token id 0 and
user 1. -/
theorem c9_witness :
    reuseStore.records.any (fun r => r.id == 0) = true ∧
    ((∃ s', revokeRefreshTokenById reuseStore 0 = .ok s' ∧
        revokeRefreshTokenById s' 0 = .ok s') ∧
     revokeAllRefreshTokensForUser (revokeAllRefreshTokensForUser reuseStore 1) 1
       = revokeAllRefreshTokensForUser reuseStore 1) :=
  ⟨by decide, c9_revocation_idempotent reuseStore 0 1 (by decide)⟩

/-- Claim C2: for a freshly issued token (fresh fingerprint, not yet
expired), the first rotation of its raw secret succeeds, and every later
rotation presenting the same original raw secret — whatever user id, expiry,
new raw secret and clock it is called with — fails with `ReuseDetected`,
never with `InvalidToken`: the record is still found, but revoked. -/
theorem c2_single_use_then_reuse_detected
    (s : Store) (uid r e uid2 e2 newRaw now : Nat)
    (hr : findByHash s (hashToken r) = none)
    (hn : findByHash s (hashToken newRaw) = none)
    (hne : newRaw ≠ r)
    (hexp : ¬ e < now) :
    ∃ s1 rec1 s2 rec2,
      createRefreshToken s uid r e = .ok (s1, rec1) ∧
      rotateRefreshToken s1 r uid2 e2 newRaw now = (s2, .ok (newRaw, rec2)) ∧
      ∀ uid3 e3 nR3 now3,
        rotateRefreshToken s2 r uid3 e3 nR3 now3 = (s2, .error .reuseDetected) := by
  have hhne : hashToken r ≠ hashToken newRaw := fun h => hne (hashToken_injective h).symm
  set rec1 := freshRecord s uid (hashToken r) e with hrec1
  set s1 : Store := { records := s.records ++ [rec1], nextId := s.nextId + 1 } with hs1
  have hcreate : createRefreshToken s uid r e = .ok (s1, rec1) := create_ok hr
  have hfind1 : findByHash s1 (hashToken r) = some rec1 := by
    rw [hs1, findByHash_append_tail s _ _ _ hr]
    simp [hrec1, freshRecord]
  have hconf1 : findByHash s1 (hashToken newRaw) = none := by
    rw [hs1, findByHash_append_tail s _ _ _ hn]
    simp [hrec1, freshRecord, hhne]
  have hrot := @rotate_ok s1 r uid2 e2 newRaw now rec1
    hfind1 (rfl : rec1.revoked = false) (by exact hexp) hconf1
  refine ⟨s1, rec1, _, _, hcreate, hrot, ?_⟩
  intro uid3 e3 nR3 now3
  have hfind2 := findByHash_commit s1 rec1 [freshRecord s1 uid2 (hashToken newRaw) e2]
    (hashToken r) (s1.nextId + 1) hfind1
  rw [revokeIfId_self] at hfind2
  exact rotate_reuse hfind2 rfl

/-- Claim C2 witness: issue raw secret 5 into the empty store at expiry 100,
rotate it at time 50 with new raw secret 9, then replay the original. -/
theorem c2_witness :
    ((findByHash ⟨[], 0⟩ (hashToken 5) = none) ∧ (9 : Nat) ≠ 5 ∧ ¬ (100 < 50)) ∧
    ∃ s1 rec1 s2 rec2,
      createRefreshToken ⟨[], 0⟩ 1 5 100 = .ok (s1, rec1) ∧
      rotateRefreshToken s1 5 1 200 9 50 = (s2, .ok (9, rec2)) ∧
      ∀ uid3 e3 nR3 now3,
        rotateRefreshToken s2 5 uid3 e3 nR3 now3 = (s2, .error .reuseDetected) :=
  ⟨⟨rfl, by decide, by decide⟩,
   c2_single_use_then_reuse_detected ⟨[], 0⟩ 1 5 100 1 200 9 50 rfl rfl
     (by decide) (by decide)⟩

end Kinzoku
